import Mathlib

/-!
Shallow embedding of the achievement rule-engine subsystem of the
saving_box_challenge backend (src/services/communityService.js, DB-backed
section, and src/unnamed/part_006 = the achievement model).

Numbers (stat values, condition targets) are modelled as rationals:
the source stores non-negative integers or floats and compares / divides
them with ordinary numeric operators.  A statistics snapshot is a partial
map from stat keys to numbers; an absent key reads as `undefined` in JS,
which `|| 0` turns into 0.
-/

/-- A statistics snapshot: stat key → value, `none` when the key is absent. -/
def Stats : Type := String → Option ℚ

/-- One comparison condition `{ type, operator, value }`.  The `type` field
may be absent from a malformed condition object, hence `Option`. -/
structure Condition where
  type : Option String
  operator : String
  value : ℚ
deriving DecidableEq

/-- The lookup `stats[type] || 0` of `evaluateCondition`: an absent key
(or an absent `type` field, which indexes the snapshot with `undefined`)
yields 0. -/
def statValueOf (stats : Stats) (t : Option String) : ℚ :=
  match t with
  | some key => (stats key).getD 0
  | none => 0

/-- Model of `evaluateCondition(condition, stats)` from communityService.js:
`userValue = stats[type] || 0`, then dispatch on `operator` through
`operatorMap`; a key miss in the map returns `false`. -/
def evaluateCondition (condition : Condition) (stats : Stats) : Bool :=
  let userValue := statValueOf stats condition.type
  if condition.operator = ">=" then decide (userValue ≥ condition.value)
  else if condition.operator = ">" then decide (userValue > condition.value)
  else if condition.operator = "==" then decide (userValue = condition.value)
  else if condition.operator = "<=" then decide (userValue ≤ condition.value)
  else if condition.operator = "<" then decide (userValue < condition.value)
  else false

/-- Model of `evaluateAllConditions(conditions, stats)`: `conditions.every(...)`. -/
def evaluateAllConditions (conditions : List Condition) (stats : Stats) : Bool :=
  conditions.all (fun condition => evaluateCondition condition stats)

/-- The `{ progress, currentValue, targetValue }` record returned by
`calculateAchievementProgress`.  `Math.round` produces an integer. -/
structure ProgressInfo where
  progress : ℤ
  currentValue : ℚ
  targetValue : ℚ
deriving DecidableEq

/-- Model of `calculateAchievementProgress(condition, stats)` from
communityService.js: `currentValue = stats[type] || 0`,
`progress = Math.min(100, Math.round((currentValue / targetValue) * 100))`.
`Math.round` rounds half away from minus infinity, as Lean `round` does.
Division by a zero `targetValue` is undefined behaviour in the source
(spec §9); the rational model takes `x / 0 = 0`. -/
def calculateAchievementProgress (condition : Condition) (stats : Stats) : ProgressInfo :=
  let targetValue := condition.value
  let currentValue := statValueOf stats condition.type
  let progress := min 100 (round ((currentValue / targetValue) * 100))
  { progress := progress, currentValue := currentValue, targetValue := targetValue }

/-- The condition field of an achievement row: a single condition object or
an array of them (JSONB allows either shape). -/
inductive CondField where
  | single (c : Condition)
  | list (cs : List Condition)
deriving DecidableEq

/-- An `achievement` table row as read by the service. -/
structure Achievement where
  id : Nat
  code : String
  title : String
  description : String
  condition : Option CondField
  is_active : Bool
deriving DecidableEq

/-- Model of `isAchievementEligible(achievement, stats)`: false when the achievement
or its condition field is absent/null; otherwise wrap a single condition
into a one-element array and delegate to `evaluateAllConditions`. -/
def isAchievementEligible (achievement : Option Achievement) (stats : Stats) : Bool :=
  match achievement with
  | none => false
  | some a =>
    match a.condition with
    | none => false
    | some (CondField.single c) => evaluateAllConditions [c] stats
    | some (CondField.list cs) => evaluateAllConditions cs stats

/-! Spec-side definitions, written from the specification's words, for the
refinement-style claims. -/

/-- Modelled from the spec: `u OP v` for the five supported operators,
`False` for any other operator string. -/
def opHolds (op : String) (u v : ℚ) : Prop :=
  if op = ">=" then u ≥ v
  else if op = ">" then u > v
  else if op = "==" then u = v
  else if op = "<=" then u ≤ v
  else if op = "<" then u < v
  else False

/-- The five supported operator strings. -/
def supportedOperators : List String := [">=", ">", "==", "<=", "<"]

/-- Modelled from the spec: `u = s[c.type]` when the key is present,
`u = 0` when it is absent (also when the `type` field itself is missing). -/
def specUserValue (condition : Condition) (stats : Stats) : ℚ :=
  match condition.type with
  | some key =>
    match stats key with
    | some v => v
    | none => 0
  | none => 0

/-- Modelled from the spec: `currentValue = stats[condition.type] ?? 0`,
`targetValue = condition.value`,
`progress = min(100, round(currentValue / targetValue * 100))`. -/
def progressSpec (condition : Condition) (stats : Stats) : ProgressInfo :=
  { progress := min 100 (round (specUserValue condition stats / condition.value * 100))
    currentValue := specUserValue condition stats
    targetValue := condition.value }

/-- Example snapshot with a single key `savings_count = 1`. -/
def exStatsSavings : Stats := fun key => if key = "savings_count" then some 1 else none

/-- Example snapshot with a single key `consecutive_deposit_days = 5`. -/
def exStatsDeposit : Stats := fun key => if key = "consecutive_deposit_days" then some 5 else none

/-- The empty snapshot: every key absent. -/
def exStatsEmpty : Stats := fun _ => none

/-- The two lookups agree definitionally case by case. -/
theorem statValueOf_eq_specUserValue (c : Condition) (s : Stats) :
    statValueOf s c.type = specUserValue c s := by
  unfold statValueOf specUserValue
  cases c.type with
  | none => rfl
  | some key =>
    simp only
    cases h : s key <;> simp [h, Option.getD]

/-- Truth of `evaluateCondition` characterised: it returns `true` exactly when
the operator is one of the five supported ones and the comparison holds on the
looked-up (default-0) user value. -/
theorem evaluateCondition_eq_true_iff (c : Condition) (s : Stats) :
    evaluateCondition c s = true ↔
      (c.operator ∈ supportedOperators ∧ opHolds c.operator (specUserValue c s) c.value) := by
  have hv := statValueOf_eq_specUserValue c s
  unfold evaluateCondition opHolds supportedOperators
  simp only [hv, List.mem_cons, List.not_mem_nil, or_false]
  split_ifs with h1 h2 h3 h4 h5 <;> simp_all

/-- Claim C3: for a condition whose operator is one of `{>=, >, ==, <=, <}`,
`evaluateCondition` returns true iff `u OP value` holds, where `u` is the
snapshot entry at the condition's key when present and `0` when absent. -/
theorem evaluateCondition_semantics (c : Condition) (s : Stats)
    (hop : c.operator ∈ supportedOperators) :
    evaluateCondition c s = true ↔ opHolds c.operator (specUserValue c s) c.value := by
  rw [evaluateCondition_eq_true_iff]
  exact and_iff_right hop

/-- Witness for C3 at the spec's concrete scenario
`{type:'savings_count', operator:'>=', value:1}` on `{savings_count:1}`. -/
theorem evaluateCondition_semantics_witness :
    (Condition.mk (some ("savings_count")) ">=" 1).operator ∈ supportedOperators ∧
      (evaluateCondition (Condition.mk (some ("savings_count")) ">=" 1) exStatsSavings = true ↔
        opHolds (">=") (specUserValue (Condition.mk (some ("savings_count")) ">=" 1) exStatsSavings) 1) :=
  ⟨by decide, evaluateCondition_semantics (Condition.mk (some ("savings_count")) ">=" 1) exStatsSavings (by decide)⟩

/-- Claim C2 counterexample: a condition that is missing its `type` field does
NOT always evaluate to false.  `{operator:'<=', value:5}` against the empty
snapshot looks up `undefined`, defaults the user value to 0, and `0 <= 5`
makes the whole condition true. -/
theorem evaluateCondition_missingType_true :
    evaluateCondition (Condition.mk none ("<=") 5) exStatsEmpty = true := by decide

/-- Claim C2 (amended): an unsupported operator fails closed (returns false,
never throws — the Lean function is total); a missing `type` field is not
special-cased: the user value defaults to 0 and the operator is still applied
to it, so the condition evaluates to true exactly when the operator is
supported and holds at 0. -/
theorem evaluateCondition_failsClosed (c : Condition) (s : Stats) :
    (c.operator ∉ supportedOperators → evaluateCondition c s = false) ∧
    (c.type = none →
      (evaluateCondition c s = true ↔
        (c.operator ∈ supportedOperators ∧ opHolds c.operator 0 c.value))) := by
  constructor
  · intro hna
    cases hb : evaluateCondition c s with
    | false => rfl
    | true =>
      exact absurd ((evaluateCondition_eq_true_iff c s).mp hb).1 hna
  · intro ht
    have h0 : specUserValue c s = 0 := by unfold specUserValue; rw [ht]
    rw [evaluateCondition_eq_true_iff, h0]

/-- Witness for C2's amended theorem: the unsupported operator `'=>'` returns
false on the empty snapshot. -/
theorem evaluateCondition_failsClosed_witness :
    (Condition.mk (some ("savings_count")) "=>" 3).operator ∉ supportedOperators ∧
      evaluateCondition (Condition.mk (some ("savings_count")) "=>" 3) exStatsEmpty = false :=
  ⟨by decide,
    (evaluateCondition_failsClosed (Condition.mk (some ("savings_count")) "=>" 3) exStatsEmpty).1
      (by decide)⟩

/-- Claim C4: `calculateAchievementProgress` returns exactly the spec's record
`{progress = min(100, round(currentValue / targetValue * 100)), currentValue =
stats[type] ?? 0, targetValue = condition.value}`; at the spec's concrete
scenario (`value = 7`, `consecutive_deposit_days = 5`) it returns
`{progress := 71, currentValue := 5, targetValue := 7}`. -/
theorem calculateAchievementProgress_formula :
    (∀ (c : Condition) (s : Stats), calculateAchievementProgress c s = progressSpec c s) ∧
    calculateAchievementProgress (Condition.mk (some ("consecutive_deposit_days")) ">=" 7)
        exStatsDeposit =
      { progress := 71, currentValue := 5, targetValue := 7 } := by
  constructor
  · intro c s
    simp only [calculateAchievementProgress, progressSpec, statValueOf_eq_specUserValue]
  · have hround : round ((5 : ℚ) / 7 * 100) = 71 := by
      rw [round_eq, Int.floor_eq_iff]
      constructor <;> norm_num
    have hmin : min (100 : ℤ) 71 = 71 := min_eq_right (by norm_num)
    simp [calculateAchievementProgress, statValueOf, exStatsDeposit, hround, hmin]

/-- Rounding is monotone: shared helper, via `round_eq` and floor monotonicity. -/
theorem round_le_round_of_le {x y : ℚ} (h : x ≤ y) : round x ≤ round y := by
  rw [round_eq, round_eq]
  exact Int.floor_mono (by linarith)

/-- Claim C5: progress of a single numeric `>=` condition, with the target
held fixed and positive, never decreases as the current value increases, and
equals exactly 100 once the current value reaches the target. -/
theorem calculateAchievementProgress_monotone (c : Condition) (s₁ s₂ : Stats)
    (hop : c.operator = ">=") (hpos : 0 < c.value)
    (hle : statValueOf s₁ c.type ≤ statValueOf s₂ c.type) :
    (calculateAchievementProgress c s₁).progress ≤ (calculateAchievementProgress c s₂).progress ∧
    (c.value ≤ statValueOf s₂ c.type → (calculateAchievementProgress c s₂).progress = 100) := by
  unfold calculateAchievementProgress
  simp only
  constructor
  · apply min_le_min le_rfl
    apply round_le_round_of_le
    have hdiv : statValueOf s₁ c.type / c.value ≤ statValueOf s₂ c.type / c.value :=
      (div_le_div_iff_of_pos_right hpos).mpr hle
    exact mul_le_mul_of_nonneg_right hdiv (by norm_num)
  · intro hsat
    have h1 : (1 : ℚ) ≤ statValueOf s₂ c.type / c.value := (one_le_div hpos).mpr hsat
    have h2 : (100 : ℚ) ≤ statValueOf s₂ c.type / c.value * 100 := by
      have := mul_le_mul_of_nonneg_right h1 (by norm_num : (0 : ℚ) ≤ 100)
      linarith
    have h3 : (100 : ℤ) ≤ round (statValueOf s₂ c.type / c.value * 100) := by
      have := round_le_round_of_le h2
      rwa [show round (100 : ℚ) = 100 from by norm_num [round_eq]] at this
    exact min_eq_left h3

/-- Witness for C5: target 7, current values 5 and 9; the second snapshot
meets the target so its progress is exactly 100. -/
theorem calculateAchievementProgress_monotone_witness :
    ((Condition.mk (some ("consecutive_deposit_days")) ">=" 7).operator = ">=") ∧
      ((0 : ℚ) < 7) ∧
      statValueOf exStatsDeposit (some ("consecutive_deposit_days")) ≤
        statValueOf (fun key => if key = "consecutive_deposit_days" then some 9 else none)
          (some ("consecutive_deposit_days")) ∧
      ((calculateAchievementProgress (Condition.mk (some ("consecutive_deposit_days")) ">=" 7)
            exStatsDeposit).progress ≤
          (calculateAchievementProgress (Condition.mk (some ("consecutive_deposit_days")) ">=" 7)
            (fun key => if key = "consecutive_deposit_days" then some 9 else none)).progress ∧
        ((7 : ℚ) ≤
            statValueOf (fun key => if key = "consecutive_deposit_days" then some 9 else none)
              (some ("consecutive_deposit_days")) →
          (calculateAchievementProgress (Condition.mk (some ("consecutive_deposit_days")) ">=" 7)
            (fun key => if key = "consecutive_deposit_days" then some 9 else none)).progress =
            100)) :=
  ⟨rfl, by norm_num, by decide,
    calculateAchievementProgress_monotone (Condition.mk (some ("consecutive_deposit_days")) ">=" 7)
      exStatsDeposit (fun key => if key = "consecutive_deposit_days" then some 9 else none)
      rfl (by norm_num) (by decide)⟩

/-- Claim C6: `isAchievementEligible` returns false on an absent/null rule or
an absent/null condition field; otherwise a single condition is wrapped into a
one-element list and the result is `evaluateAllConditions` on that list, whose
semantics is the logical AND of its members. -/
theorem isAchievementEligible_spec (stats : Stats) :
    isAchievementEligible none stats = false ∧
    (∀ a : Achievement, a.condition = none → isAchievementEligible (some a) stats = false) ∧
    (∀ (a : Achievement) (c : Condition), a.condition = some (CondField.single c) →
      isAchievementEligible (some a) stats = evaluateAllConditions [c] stats) ∧
    (∀ (a : Achievement) (cs : List Condition), a.condition = some (CondField.list cs) →
      isAchievementEligible (some a) stats = evaluateAllConditions cs stats) ∧
    (∀ cs : List Condition,
      (evaluateAllConditions cs stats = true ↔ ∀ c ∈ cs, evaluateCondition c stats = true)) := by
  refine ⟨rfl, ?_, ?_, ?_, ?_⟩
  · intro a h
    simp [isAchievementEligible, h]
  · intro a c h
    simp [isAchievementEligible, h]
  · intro a cs h
    simp [isAchievementEligible, h]
  · intro cs
    simp [evaluateAllConditions, List.all_eq_true]

/-- The example achievement used by concrete witnesses: one `>=` condition on
`savings_count`. -/
def exAchievement : Achievement :=
  { id := 1, code := "first_savings", title := "t", description := "d",
    condition := some (CondField.single (Condition.mk (some ("savings_count")) ">=" 1)),
    is_active := true }

/-- Witness for C6: normalization of `exAchievement`'s single condition. -/
theorem isAchievementEligible_spec_witness :
    exAchievement.condition =
        some (CondField.single (Condition.mk (some ("savings_count")) ">=" 1)) ∧
      isAchievementEligible (some exAchievement) exStatsSavings =
        evaluateAllConditions [Condition.mk (some ("savings_count")) ">=" 1] exStatsSavings :=
  ⟨rfl,
    (isAchievementEligible_spec exStatsSavings).2.2.1 exAchievement
      (Condition.mk (some ("savings_count")) ">=" 1) rfl⟩

/-- Claim C7: the empty condition list is vacuously satisfied by every
snapshot: `[].every(...)` is `true`. -/
theorem evaluateAllConditions_nil (stats : Stats) :
    evaluateAllConditions [] stats = true := rfl

/-! The stateful part: the achievement model (src/unnamed/part_006) backed by
the `achievement`, `user_achievement` and `achievement_reward` tables, and the
orchestrating service functions.  A database state carries the achievement
catalog, the user directory (email → id, `findUserByEmail`), the per-user
statistics snapshot provider (`getUserStatsForAchievements`), the reward link
table (`getAchievementRewards`, read-only here) and the `user_achievement`
rows.  `now` stands for the clock that stamps `unlocked_at` on insert. -/

/-- A `cosmetic_item` row as returned by `getAchievementRewards`. -/
structure Reward where
  id : Nat
  type : String
  name : String
  description : String
  asset_url : String
  rarity : String
deriving DecidableEq

/-- A `user_achievement` row (the unlock record). -/
structure UnlockRecord where
  user_id : Nat
  achievement_id : Nat
  unlocked_at : Nat
deriving DecidableEq

/-- One element of the batch returned by `checkAndRewardAchievements` /
`forceUnlockAchievement`: the achievement's fields spread together with
`completedAt` (the record's `unlocked_at`) and the resolved rewards. -/
structure UnlockedEntry where
  achievement : Achievement
  completedAt : Nat
  rewards : List Reward
deriving DecidableEq

/-- The database state visible to the achievement subsystem. -/
structure DbState where
  achievements : List Achievement
  users : String → Option Nat
  statsOf : Nat → Stats
  rewards : Nat → List Reward
  unlocked : List UnlockRecord
  now : Nat

/-- A persistence failure (query error) surfaced by the driver. -/
inductive DbError where
  | queryFailed (message : String)
deriving DecidableEq

/-- Model of `getAllAchievements`: `SELECT ... FROM achievement WHERE is_active = true
ORDER BY created_at DESC`.  The ordering is a fixed permutation of the stored
rows; the claims below are insensitive to it, so the model returns the rows in
storage order. -/
def getAllAchievements (st : DbState) : List Achievement :=
  st.achievements.filter (fun a => a.is_active)

/-- Model of `getAchievementByCode`: `SELECT ... WHERE code = $1 AND is_active = true`,
first matching row or null. -/
def getAchievementByCode (st : DbState) (code : String) : Option Achievement :=
  (st.achievements.filter (fun a => a.code = code && a.is_active)).head?

/-- Model of `hasUserUnlockedAchievement`: `SELECT id FROM user_achievement WHERE
user_id = $1 AND achievement_id = $2`, then `rows.length > 0`. -/
def hasUserUnlockedAchievement (st : DbState) (userId achievementId : Nat) : Bool :=
  st.unlocked.any (fun r => r.user_id == userId && r.achievement_id == achievementId)

/-- Model of `unlockUserAchievement`: `INSERT ... ON CONFLICT (user_id, achievement_id)
DO NOTHING RETURNING *`.  On conflict no row is inserted and no row is
returned (`rows[0]` is undefined, modelled `none`); otherwise the fresh row is
appended and returned.  The stored `meta` JSONB is not read back by any code
under specification and is omitted from the model. -/
def unlockUserAchievement (st : DbState) (userId achievementId : Nat) :
    DbState × Option UnlockRecord :=
  if hasUserUnlockedAchievement st userId achievementId then
    (st, none)
  else
    let record : UnlockRecord :=
      { user_id := userId, achievement_id := achievementId, unlocked_at := st.now }
    ({ st with unlocked := st.unlocked ++ [record] }, some record)

/-- Model of `getAchievementRewards`: join of `achievement_reward` with
`cosmetic_item` for one achievement — a pure read of the link table. -/
def getAchievementRewards (st : DbState) (achievementId : Nat) : List Reward :=
  st.rewards achievementId

/-- Model of `calculateUserStats`: look the user up by email; a missing user yields the
all-zero default snapshot, otherwise the statistics provider's snapshot. -/
def calculateUserStats (st : DbState) (studentEmail : String) : Stats :=
  match st.users studentEmail with
  | none => fun key =>
      if ["bucket_count", "success_days", "current_streak", "challenge_success_count",
          "completed_buckets", "total_success_days"].contains key then some 0 else none
  | some userId => st.statsOf userId

/-- The `for (const achievement of allAchievements)` loop body of
`checkAndRewardAchievements`: skip when already unlocked; otherwise, when
eligible, insert the unlock record and — only when a row came back — resolve
the rewards and append the entry to the batch.  `fetchRewards` stands for the
`getAchievementRewards` query, which can fail; a failure aborts the loop
(the thrown error propagates) while the state keeps every insert made so
far. -/
def achievementLoop (fetchRewards : Nat → Except DbError (List Reward)) (userId : Nat)
    (stats : Stats) (achievements : List Achievement) (st : DbState) :
    DbState × Except DbError (List UnlockedEntry) :=
  match achievements with
  | [] => (st, Except.ok [])
  | a :: rest =>
    if hasUserUnlockedAchievement st userId a.id then
      achievementLoop fetchRewards userId stats rest st
    else if isAchievementEligible (some a) stats then
      match unlockUserAchievement st userId a.id with
      | (st1, some record) =>
        match fetchRewards a.id with
        | Except.error e => (st1, Except.error e)
        | Except.ok rws =>
          let res := achievementLoop fetchRewards userId stats rest st1
          (res.1, res.2.map (fun batch =>
            { achievement := a, completedAt := record.unlocked_at, rewards := rws } :: batch))
      | (st1, none) => achievementLoop fetchRewards userId stats rest st1
    else
      achievementLoop fetchRewards userId stats rest st

/-- Model of `checkAndRewardAchievements(studentEmail)` with an explicit reward-query
outcome: unknown user returns the empty batch; otherwise compute the snapshot
once, load the active achievements and run the loop. -/
def checkAndRewardAchievementsE (fetchRewards : Nat → Except DbError (List Reward))
    (studentEmail : String) (st : DbState) : DbState × Except DbError (List UnlockedEntry) :=
  match st.users studentEmail with
  | none => (st, Except.ok [])
  | some userId =>
    achievementLoop fetchRewards userId (calculateUserStats st studentEmail)
      (getAllAchievements st) st

/-- Model of `checkAndRewardAchievements(studentEmail)` on the happy path where every
reward query succeeds and reads the link table of the state. -/
def checkAndRewardAchievements (studentEmail : String) (st : DbState) :
    DbState × Except DbError (List UnlockedEntry) :=
  checkAndRewardAchievementsE (fun aid => Except.ok (getAchievementRewards st aid))
    studentEmail st

/-- Model of `forceUnlockAchievement(studentEmail, achievementCode)`: resolve the user
and the achievement code (null → null), return null when the pair is already
unlocked, otherwise insert the record and return the achievement with
`completedAt` and its resolved rewards.  No condition is ever evaluated. -/
def forceUnlockAchievement (studentEmail achievementCode : String) (st : DbState) :
    DbState × Option UnlockedEntry :=
  match st.users studentEmail with
  | none => (st, none)
  | some userId =>
    match getAchievementByCode st achievementCode with
    | none => (st, none)
    | some achievement =>
      if hasUserUnlockedAchievement st userId achievement.id then
        (st, none)
      else
        match unlockUserAchievement st userId achievement.id with
        | (st1, some record) =>
          (st1, some { achievement := achievement, completedAt := record.unlocked_at,
                       rewards := getAchievementRewards st1 achievement.id })
        | (st1, none) => (st1, none)

/-- The rule object accepted by `addAchievementRule`; each field may be
absent. -/
structure RuleInput where
  code : Option String
  title : Option String
  description : Option String
  conditions : Option CondField
  condition : Option CondField

/-- Model of `addAchievementRule(rule)`: false when `code` or `title` is missing;
false when an active achievement with the same code exists; the
`createAchievement` INSERT may fail (`insertOutcome`), which the `catch`
turns into false; otherwise the validated rule is persisted (description
defaulting, condition falling back `conditions || condition || []`, id
assigned by the database serial, `is_active` defaulting to true) and the
function returns true. -/
def addAchievementRule (rule : RuleInput) (insertOutcome : Except DbError Unit)
    (st : DbState) : DbState × Bool :=
  match rule.code, rule.title with
  | some code, some title =>
    if (getAchievementByCode st code).isSome then
      (st, false)
    else
      match insertOutcome with
      | Except.error _ => (st, false)
      | Except.ok _ =>
        let validatedRule : Achievement :=
          { id := st.achievements.length + 1
            code := code
            title := title
            description := rule.description.getD ("설명 없음")
            condition := some ((rule.conditions).getD ((rule.condition).getD (CondField.list [])))
            is_active := true }
        ({ st with achievements := st.achievements ++ [validatedRule] }, true)
  | _, _ => (st, false)

/-- Duplicate insert: the `ON CONFLICT DO NOTHING` upsert on an
already-present pair changes nothing and returns no row. -/
theorem unlockUserAchievement_already (st : DbState) (u aid : Nat)
    (h : hasUserUnlockedAchievement st u aid = true) :
    unlockUserAchievement st u aid = (st, none) := by
  unfold unlockUserAchievement
  simp [h]

/-- Fresh insert: on an absent pair the upsert appends one row and returns
it. -/
theorem unlockUserAchievement_fresh (st : DbState) (u aid : Nat)
    (h : hasUserUnlockedAchievement st u aid = false) :
    unlockUserAchievement st u aid =
      ({ st with unlocked := st.unlocked ++ [UnlockRecord.mk u aid st.now] },
        some (UnlockRecord.mk u aid st.now)) := by
  unfold unlockUserAchievement
  simp [h]

/-- Characterisation of `hasUserUnlockedAchievement` as row membership. -/
theorem hasUserUnlockedAchievement_iff (st : DbState) (u aid : Nat) :
    hasUserUnlockedAchievement st u aid = true ↔
      ∃ r ∈ st.unlocked, r.user_id = u ∧ r.achievement_id = aid := by
  simp [hasUserUnlockedAchievement, List.any_eq_true, Bool.and_eq_true, beq_iff_eq]

/-- The loop never deletes or edits rows: every field of the state except
`unlocked` is preserved, and `unlocked` is only appended to. -/
theorem achievementLoop_state (fetch : Nat → Except DbError (List Reward)) (userId : Nat)
    (stats : Stats) (l : List Achievement) (st : DbState) :
    (achievementLoop fetch userId stats l st).1.achievements = st.achievements ∧
    (achievementLoop fetch userId stats l st).1.users = st.users ∧
    (achievementLoop fetch userId stats l st).1.statsOf = st.statsOf ∧
    (achievementLoop fetch userId stats l st).1.rewards = st.rewards ∧
    (achievementLoop fetch userId stats l st).1.now = st.now ∧
    ∃ ext, (achievementLoop fetch userId stats l st).1.unlocked = st.unlocked ++ ext := by
  induction l generalizing st with
  | nil => exact ⟨rfl, rfl, rfl, rfl, rfl, [], by simp [achievementLoop]⟩
  | cons a rest ih =>
    unfold achievementLoop
    cases h1 : hasUserUnlockedAchievement st userId a.id with
    | true =>
      simp only [if_true]
      exact ih st
    | false =>
      simp only [Bool.false_eq_true, if_false]
      cases h2 : isAchievementEligible (some a) stats with
      | false =>
        simp only [Bool.false_eq_true, if_false]
        exact ih st
      | true =>
        simp only [if_true]
        rw [unlockUserAchievement_fresh st userId a.id h1]
        cases hf : fetch a.id with
        | error e =>
          refine ⟨rfl, rfl, rfl, rfl, rfl, [UnlockRecord.mk userId a.id st.now], rfl⟩
        | ok rws =>
          obtain ⟨g1, g2, g3, g4, g5, ext, g6⟩ :=
            ih { st with unlocked := st.unlocked ++ [UnlockRecord.mk userId a.id st.now] }
          exact ⟨g1, g2, g3, g4, g5, [UnlockRecord.mk userId a.id st.now] ++ ext,
            by simp only [g6, List.append_assoc]⟩

/-- An appended-to unlock table satisfies every membership the original
did. -/
theorem hasUserUnlockedAchievement_mono {st st1 : DbState} (u aid : Nat)
    (hext : ∃ ext, st1.unlocked = st.unlocked ++ ext)
    (h : hasUserUnlockedAchievement st u aid = true) :
    hasUserUnlockedAchievement st1 u aid = true := by
  obtain ⟨ext, hext⟩ := hext
  rw [hasUserUnlockedAchievement_iff] at h ⊢
  obtain ⟨r, hr, hru⟩ := h
  exact ⟨r, by simp [hext, List.mem_append, hr], hru⟩

/-- After the loop, every achievement of the processed list that is eligible
under the snapshot has its unlock row in the final state (it was either
already there or inserted by this pass) — provided no reward query failed. -/
theorem achievementLoop_covers (fetch : Nat → Except DbError (List Reward)) (userId : Nat)
    (stats : Stats) (hok : ∀ aid, ∃ rs, fetch aid = Except.ok rs) :
    ∀ (l : List Achievement) (st : DbState), ∀ a ∈ l,
      isAchievementEligible (some a) stats = true →
      hasUserUnlockedAchievement (achievementLoop fetch userId stats l st).1 userId a.id
        = true := by
  intro l
  induction l with
  | nil => intro st a ha; exact absurd ha (List.not_mem_nil a)
  | cons b rest ih =>
    intro st a ha helig
    rcases List.mem_cons.mp ha with rfl | hmem
    · -- the achievement under scrutiny is the head of the list
      unfold achievementLoop
      cases h1 : hasUserUnlockedAchievement st userId a.id with
      | true =>
        simp only [if_true]
        exact hasUserUnlockedAchievement_mono userId a.id
          (achievementLoop_state fetch userId stats rest st).2.2.2.2.2 h1
      | false =>
        simp only [Bool.false_eq_true, if_false, helig, if_true]
        rw [unlockUserAchievement_fresh st userId a.id h1]
        obtain ⟨rs, hrs⟩ := hok a.id
        rw [hrs]
        have hst1 : hasUserUnlockedAchievement
            { st with unlocked := st.unlocked ++ [UnlockRecord.mk userId a.id st.now] }
            userId a.id = true := by
          rw [hasUserUnlockedAchievement_iff]
          exact ⟨UnlockRecord.mk userId a.id st.now, by simp, rfl, rfl⟩
        exact hasUserUnlockedAchievement_mono userId a.id
          (achievementLoop_state fetch userId stats rest _).2.2.2.2.2 hst1
    · -- the achievement under scrutiny sits in the tail
      unfold achievementLoop
      cases h1 : hasUserUnlockedAchievement st userId b.id with
      | true =>
        simp only [if_true]
        exact ih st a hmem helig
      | false =>
        simp only [Bool.false_eq_true, if_false]
        cases h2 : isAchievementEligible (some b) stats with
        | false =>
          simp only [Bool.false_eq_true, if_false]
          exact ih st a hmem helig
        | true =>
          simp only [if_true]
          rw [unlockUserAchievement_fresh st userId b.id h1]
          obtain ⟨rs, hrs⟩ := hok b.id
          rw [hrs]
          exact ih _ a hmem helig

/-- When every eligible achievement of the list is already unlocked, the loop
is a pure no-op returning the empty batch. -/
theorem achievementLoop_noop (fetch : Nat → Except DbError (List Reward)) (userId : Nat)
    (stats : Stats) :
    ∀ (l : List Achievement) (st : DbState),
      (∀ a ∈ l, isAchievementEligible (some a) stats = true →
        hasUserUnlockedAchievement st userId a.id = true) →
      achievementLoop fetch userId stats l st = (st, Except.ok []) := by
  intro l
  induction l with
  | nil => intro st _; rfl
  | cons b rest ih =>
    intro st h
    unfold achievementLoop
    cases h1 : hasUserUnlockedAchievement st userId b.id with
    | true =>
      simp only [if_true]
      exact ih st (fun a ha => h a (List.mem_cons_of_mem b ha))
    | false =>
      have h2 : isAchievementEligible (some b) stats = false := by
        cases h2 : isAchievementEligible (some b) stats with
        | false => rfl
        | true => rw [h b (List.mem_cons_self b rest) h2] at h1; exact absurd h1 (by simp)
      simp only [Bool.false_eq_true, if_false, h2]
      exact ih st (fun a ha => h a (List.mem_cons_of_mem b ha))

/-- With every reward query succeeding the loop always returns an `ok`
batch. -/
theorem achievementLoop_ok (fetch : Nat → Except DbError (List Reward)) (userId : Nat)
    (stats : Stats) (hok : ∀ aid, ∃ rs, fetch aid = Except.ok rs) :
    ∀ (l : List Achievement) (st : DbState),
      ∃ b, (achievementLoop fetch userId stats l st).2 = Except.ok b := by
  intro l
  induction l with
  | nil => intro st; exact ⟨[], rfl⟩
  | cons b rest ih =>
    intro st
    unfold achievementLoop
    cases h1 : hasUserUnlockedAchievement st userId b.id with
    | true => simpa only [if_true] using ih st
    | false =>
      simp only [Bool.false_eq_true, if_false]
      cases h2 : isAchievementEligible (some b) stats with
      | false => simpa only [Bool.false_eq_true, if_false] using ih st
      | true =>
        simp only [if_true]
        rw [unlockUserAchievement_fresh st userId b.id h1]
        obtain ⟨rs, hrs⟩ := hok b.id
        rw [hrs]
        obtain ⟨bb, hbb⟩ := ih { st with
          unlocked := st.unlocked ++ [UnlockRecord.mk userId b.id st.now] }
        refine ⟨{ achievement := b, completedAt := st.now, rewards := rs } :: bb, ?_⟩
        simp only [hbb]
        rfl

/-- When some achievement of the list is eligible and not yet unlocked, the
loop returns a non-empty `ok` batch — provided no reward query failed. -/
theorem achievementLoop_nonempty (fetch : Nat → Except DbError (List Reward)) (userId : Nat)
    (stats : Stats) (hok : ∀ aid, ∃ rs, fetch aid = Except.ok rs) :
    ∀ (l : List Achievement) (st : DbState),
      (∃ a ∈ l, hasUserUnlockedAchievement st userId a.id = false ∧
        isAchievementEligible (some a) stats = true) →
      ∃ b, (achievementLoop fetch userId stats l st).2 = Except.ok b ∧ b ≠ [] := by
  intro l
  induction l with
  | nil => rintro st ⟨a, ha, -⟩; exact absurd ha (List.not_mem_nil a)
  | cons b rest ih =>
    rintro st ⟨a, ha, hnu, hel⟩
    unfold achievementLoop
    cases h1 : hasUserUnlockedAchievement st userId b.id with
    | true =>
      have hmem : a ∈ rest := by
        rcases List.mem_cons.mp ha with rfl | hmem
        · rw [hnu] at h1; exact absurd h1 (by simp)
        · exact hmem
      simpa only [if_true] using ih st ⟨a, hmem, hnu, hel⟩
    | false =>
      simp only [Bool.false_eq_true, if_false]
      cases h2 : isAchievementEligible (some b) stats with
      | false =>
        have hmem : a ∈ rest := by
          rcases List.mem_cons.mp ha with rfl | hmem
          · rw [hel] at h2; exact absurd h2 (by simp)
          · exact hmem
        simpa only [Bool.false_eq_true, if_false] using ih st ⟨a, hmem, hnu, hel⟩
      | true =>
        simp only [if_true]
        rw [unlockUserAchievement_fresh st userId b.id h1]
        obtain ⟨rs, hrs⟩ := hok b.id
        rw [hrs]
        obtain ⟨bb, hbb⟩ := achievementLoop_ok fetch userId stats hok rest
          { st with unlocked := st.unlocked ++ [UnlockRecord.mk userId b.id st.now] }
        refine ⟨{ achievement := b, completedAt := st.now, rewards := rs } :: bb, ?_, ?_⟩
        · simp only [hbb]
          rfl
        · simp

/-- When the loop result is an error, some achievement of the list had a
failing reward query, was not unlocked on entry, and its unlock row is
nevertheless present in the final state: the insert is not rolled back. -/
theorem achievementLoop_error (fetch : Nat → Except DbError (List Reward)) (userId : Nat)
    (stats : Stats) :
    ∀ (l : List Achievement) (st : DbState) (e : DbError),
      (achievementLoop fetch userId stats l st).2 = Except.error e →
      ∃ a ∈ l, fetch a.id = Except.error e ∧
        hasUserUnlockedAchievement st userId a.id = false ∧
        hasUserUnlockedAchievement (achievementLoop fetch userId stats l st).1 userId a.id
          = true := by
  intro l
  induction l with
  | nil =>
    intro st e h
    exact absurd h (by simp [achievementLoop])
  | cons b rest ih =>
    intro st e herr
    unfold achievementLoop at herr ⊢
    cases h1 : hasUserUnlockedAchievement st userId b.id with
    | true =>
      simp only [h1, if_true] at herr ⊢
      obtain ⟨a, ha, hf, hn, hh⟩ := ih st e herr
      exact ⟨a, List.mem_cons_of_mem b ha, hf, hn, hh⟩
    | false =>
      simp only [h1, Bool.false_eq_true, if_false] at herr ⊢
      cases h2 : isAchievementEligible (some b) stats with
      | false =>
        simp only [h2, Bool.false_eq_true, if_false] at herr ⊢
        obtain ⟨a, ha, hf, hn, hh⟩ := ih st e herr
        exact ⟨a, List.mem_cons_of_mem b ha, hf, hn, hh⟩
      | true =>
        simp only [h2, if_true] at herr ⊢
        rw [unlockUserAchievement_fresh st userId b.id h1] at herr ⊢
        revert herr
        cases hf : fetch b.id with
        | error e2 =>
          intro herr
          have herr2 : (Except.error e2 : Except DbError (List UnlockedEntry))
              = Except.error e := herr
          have he : e2 = e := by simpa using herr2
          subst he
          refine ⟨b, List.mem_cons_self b rest, hf, h1, ?_⟩
          rw [hasUserUnlockedAchievement_iff]
          refine ⟨UnlockRecord.mk userId b.id st.now, ?_, rfl, rfl⟩
          show UnlockRecord.mk userId b.id st.now ∈
            st.unlocked ++ [UnlockRecord.mk userId b.id st.now]
          simp
        | ok rws =>
          intro herr
          have herr2 : ((achievementLoop fetch userId stats rest
              { st with unlocked := st.unlocked ++ [UnlockRecord.mk userId b.id st.now] }).2).map
              (fun batch =>
                ({ achievement := b, completedAt := st.now, rewards := rws } : UnlockedEntry)
                  :: batch)
              = Except.error e := herr
          have hres : (achievementLoop fetch userId stats rest
              { st with unlocked := st.unlocked ++ [UnlockRecord.mk userId b.id st.now] }).2
              = Except.error e := by
            cases hq : (achievementLoop fetch userId stats rest
                { st with unlocked := st.unlocked ++ [UnlockRecord.mk userId b.id st.now] }).2 with
            | error e3 =>
              rw [hq] at herr2
              simpa [Except.map] using herr2
            | ok bb =>
              rw [hq] at herr2
              simp [Except.map] at herr2
          obtain ⟨a, ha, hfa, hn1, hh⟩ := ih _ e hres
          have hn0 : hasUserUnlockedAchievement st userId a.id = false := by
            cases hq : hasUserUnlockedAchievement st userId a.id with
            | false => rfl
            | true =>
              have := @hasUserUnlockedAchievement_mono st { st with
                unlocked := st.unlocked ++ [UnlockRecord.mk userId b.id st.now] }
                userId a.id ⟨[UnlockRecord.mk userId b.id st.now], rfl⟩ hq
              rw [this] at hn1
              exact absurd hn1 (by simp)
          exact ⟨a, List.mem_cons_of_mem b ha, hfa, hn0, hh⟩

/-- Example user directory: one registered student with id 7. -/
def exUsers : String → Option Nat :=
  fun email => if email = "stu@univ.ac.kr" then some 7 else none

/-- Example database state for the concrete witnesses: one active achievement
(`exAchievement`), user 7 whose snapshot satisfies it, one linked reward, no
unlock rows yet. -/
def exState : DbState :=
  { achievements := [exAchievement]
    users := exUsers
    statsOf := fun _ => exStatsSavings
    rewards := fun _ => [{ id := 3, type := "character", name := "starter",
                           description := "d", asset_url := "u", rarity := "common" }]
    unlocked := []
    now := 0 }

/-- Claim C1: with the statistics snapshot unchanged between two sequential
calls (the engine never writes statistics, users or the catalog, as
`achievementLoop_state` shows), the first `checkAndRewardAchievements` call
returns a non-empty batch whenever some eligible, not-yet-unlocked active
achievement exists, the second call returns the empty batch, and a second
unlock attempt for an already-unlocked pair is a no-op — the upsert changes
nothing, returns no row (never an error), and the loop therefore never
re-fires rewards for it. -/
theorem checkAndRewardAchievements_idempotent (st : DbState) (email : String) (userId : Nat)
    (hu : st.users email = some userId)
    (hex : ∃ a ∈ getAllAchievements st,
      hasUserUnlockedAchievement st userId a.id = false ∧
      isAchievementEligible (some a) (calculateUserStats st email) = true) :
    (∃ batch, (checkAndRewardAchievements email st).2 = Except.ok batch ∧ batch ≠ []) ∧
    (checkAndRewardAchievements email (checkAndRewardAchievements email st).1).2
      = Except.ok [] ∧
    (∀ (s : DbState) (u aid : Nat), hasUserUnlockedAchievement s u aid = true →
      unlockUserAchievement s u aid = (s, none)) := by
  have hok : ∀ aid, ∃ rs,
      (fun aid => Except.ok (getAchievementRewards st aid) :
        Nat → Except DbError (List Reward)) aid = Except.ok rs :=
    fun aid => ⟨getAchievementRewards st aid, rfl⟩
  have hcu : calculateUserStats st email = st.statsOf userId := by
    simp only [calculateUserStats, hu]
  have hdef : checkAndRewardAchievements email st
      = achievementLoop (fun aid => Except.ok (getAchievementRewards st aid)) userId
          (st.statsOf userId) (getAllAchievements st) st := by
    simp only [checkAndRewardAchievements, checkAndRewardAchievementsE, hu, hcu]
  rw [hcu] at hex
  rw [hdef]
  revert hex
  generalize hGL : getAllAchievements st = L
  intro hex
  obtain ⟨p1, p2, p3, p4, p5, pext⟩ := achievementLoop_state
    (fun aid => Except.ok (getAchievementRewards st aid)) userId (st.statsOf userId) L st
  refine ⟨?_, ?_, ?_⟩
  · exact achievementLoop_nonempty _ userId _ hok L st hex
  · have husers : (achievementLoop (fun aid => Except.ok (getAchievementRewards st aid)) userId
        (st.statsOf userId) L st).1.users email = some userId := by rw [p2, hu]
    simp only [checkAndRewardAchievements, checkAndRewardAchievementsE, husers]
    have hstats2 : calculateUserStats
        (achievementLoop (fun aid => Except.ok (getAchievementRewards st aid)) userId
          (st.statsOf userId) L st).1 email = st.statsOf userId := by
      simp only [calculateUserStats, p2, hu, p3]
    have hach : getAllAchievements
        (achievementLoop (fun aid => Except.ok (getAchievementRewards st aid)) userId
          (st.statsOf userId) L st).1 = L := by
      simp only [getAllAchievements, p1]
      rw [← hGL]
      simp only [getAllAchievements]
    rw [hstats2, hach, achievementLoop_noop _ userId (st.statsOf userId) L _
      (fun a ha helig => achievementLoop_covers
        (fun aid => Except.ok (getAchievementRewards st aid)) userId
        (st.statsOf userId) hok L st a ha helig)]
  · intro s u aid h
    exact unlockUserAchievement_already s u aid h

/-- Witness for C1 on `exState`: user 7's snapshot satisfies the single
active achievement, which is not yet unlocked. -/
theorem checkAndRewardAchievements_idempotent_witness :
    exState.users "stu@univ.ac.kr" = some 7 ∧
    (∃ a ∈ getAllAchievements exState,
      hasUserUnlockedAchievement exState 7 a.id = false ∧
      isAchievementEligible (some a) (calculateUserStats exState "stu@univ.ac.kr") = true) ∧
    ((∃ batch, (checkAndRewardAchievements "stu@univ.ac.kr" exState).2 = Except.ok batch ∧
        batch ≠ []) ∧
      (checkAndRewardAchievements "stu@univ.ac.kr"
        (checkAndRewardAchievements "stu@univ.ac.kr" exState).1).2 = Except.ok [] ∧
      (∀ (s : DbState) (u aid : Nat), hasUserUnlockedAchievement s u aid = true →
        unlockUserAchievement s u aid = (s, none))) :=
  ⟨by decide, by decide,
    checkAndRewardAchievements_idempotent exState "stu@univ.ac.kr" 7 (by decide) (by decide)⟩

/-- Claim C9: when `checkAndRewardAchievements` (with a possibly failing
reward query) surfaces an error, nothing was rolled back — the unlock table
was only appended to — and the achievement whose reward resolution failed had
its unlock record freshly inserted and still persisted in the final state. -/
theorem checkAndReward_unlock_survives_reward_failure
    (fetch : Nat → Except DbError (List Reward)) (email : String) (userId : Nat)
    (st : DbState) (e : DbError)
    (hu : st.users email = some userId)
    (herr : (checkAndRewardAchievementsE fetch email st).2 = Except.error e) :
    (∃ ext, (checkAndRewardAchievementsE fetch email st).1.unlocked = st.unlocked ++ ext) ∧
    ∃ a ∈ getAllAchievements st, fetch a.id = Except.error e ∧
      hasUserUnlockedAchievement st userId a.id = false ∧
      hasUserUnlockedAchievement (checkAndRewardAchievementsE fetch email st).1 userId a.id
        = true := by
  have hdef : checkAndRewardAchievementsE fetch email st
      = achievementLoop fetch userId (calculateUserStats st email) (getAllAchievements st) st := by
    simp only [checkAndRewardAchievementsE, hu]
  rw [hdef] at herr ⊢
  exact ⟨(achievementLoop_state fetch userId (calculateUserStats st email)
      (getAllAchievements st) st).2.2.2.2.2,
    achievementLoop_error fetch userId (calculateUserStats st email)
      (getAllAchievements st) st e herr⟩

/-- A reward query that always fails, for the C9 witness. -/
def exFetchFail : Nat → Except DbError (List Reward) :=
  fun _ => Except.error (DbError.queryFailed ("reward query failed"))

/-- Witness for C9 on `exState` with every reward query failing: the call
errors, yet the unlock row of the eligible achievement is persisted. -/
theorem checkAndReward_unlock_survives_reward_failure_witness :
    exState.users "stu@univ.ac.kr" = some 7 ∧
    (checkAndRewardAchievementsE exFetchFail "stu@univ.ac.kr" exState).2
      = Except.error (DbError.queryFailed ("reward query failed")) ∧
    ((∃ ext, (checkAndRewardAchievementsE exFetchFail "stu@univ.ac.kr" exState).1.unlocked
        = exState.unlocked ++ ext) ∧
      ∃ a ∈ getAllAchievements exState,
        exFetchFail a.id = Except.error (DbError.queryFailed ("reward query failed")) ∧
        hasUserUnlockedAchievement exState 7 a.id = false ∧
        hasUserUnlockedAchievement
          (checkAndRewardAchievementsE exFetchFail "stu@univ.ac.kr" exState).1 7 a.id = true) :=
  ⟨rfl, rfl,
    checkAndReward_unlock_survives_reward_failure exFetchFail "stu@univ.ac.kr" 7 exState
      (DbError.queryFailed ("reward query failed")) rfl rfl⟩

/-- Claim C8: `forceUnlockAchievement` bypasses condition evaluation (no
conjunct below mentions any condition or snapshot): an unresolved user or
achievement code returns null without throwing; an already-unlocked pair is a
no-op returning null with the state — hence the unlock table and any reward
issuance — untouched; a first-time unlock inserts exactly one record and
returns the achievement together with `completedAt` and its resolved
rewards. -/
theorem forceUnlockAchievement_spec (email code : String) (st : DbState) :
    (st.users email = none → forceUnlockAchievement email code st = (st, none)) ∧
    (∀ userId, st.users email = some userId → getAchievementByCode st code = none →
      forceUnlockAchievement email code st = (st, none)) ∧
    (∀ userId a, st.users email = some userId → getAchievementByCode st code = some a →
      hasUserUnlockedAchievement st userId a.id = true →
      forceUnlockAchievement email code st = (st, none)) ∧
    (∀ userId a, st.users email = some userId → getAchievementByCode st code = some a →
      hasUserUnlockedAchievement st userId a.id = false →
      forceUnlockAchievement email code st =
        ({ st with unlocked := st.unlocked ++ [UnlockRecord.mk userId a.id st.now] },
          some { achievement := a, completedAt := st.now,
                 rewards := getAchievementRewards st a.id })) := by
  refine ⟨?_, ?_, ?_, ?_⟩
  · intro h
    simp only [forceUnlockAchievement, h]
  · intro userId hu hc
    simp only [forceUnlockAchievement, hu, hc]
  · intro userId a hu hc hd
    simp only [forceUnlockAchievement, hu, hc, hd, if_true]
  · intro userId a hu hc hd
    simp only [forceUnlockAchievement, hu, hc, hd, Bool.false_eq_true, if_false]
    rw [unlockUserAchievement_fresh st userId a.id hd]
    rfl

/-- Witness for C8: first-time forced unlock of `exAchievement` by code on
`exState` inserts the record and returns the entry with its reward. -/
theorem forceUnlockAchievement_spec_witness :
    exState.users "stu@univ.ac.kr" = some 7 ∧
    getAchievementByCode exState "first_savings" = some exAchievement ∧
    hasUserUnlockedAchievement exState 7 exAchievement.id = false ∧
    forceUnlockAchievement "stu@univ.ac.kr" "first_savings" exState =
      ({ exState with unlocked := exState.unlocked ++ [UnlockRecord.mk 7 exAchievement.id 0] },
        some { achievement := exAchievement, completedAt := 0,
               rewards := getAchievementRewards exState exAchievement.id }) :=
  ⟨by decide, by decide, by decide,
    (forceUnlockAchievement_spec "stu@univ.ac.kr" "first_savings" exState).2.2.2 7 exAchievement
      (by decide) (by decide) (by decide)⟩

/-- Claim C10: `addAchievementRule` is total (the embedding is a function, it
never throws) and returns false when `code` or `title` is missing, when an
active achievement with the same code already exists, or when the INSERT
fails; otherwise it persists the validated rule — whose condition field
defaults to the empty list when both `conditions` and `condition` are
absent — and returns true. -/
theorem addAchievementRule_spec (rule : RuleInput) (insertOutcome : Except DbError Unit)
    (st : DbState) :
    (rule.code = none → addAchievementRule rule insertOutcome st = (st, false)) ∧
    (rule.title = none → addAchievementRule rule insertOutcome st = (st, false)) ∧
    (∀ code, rule.code = some code → (getAchievementByCode st code).isSome = true →
      addAchievementRule rule insertOutcome st = (st, false)) ∧
    (∀ e, insertOutcome = Except.error e →
      addAchievementRule rule insertOutcome st = (st, false)) ∧
    (∀ code title, rule.code = some code → rule.title = some title →
      (getAchievementByCode st code).isSome = false → insertOutcome = Except.ok () →
      addAchievementRule rule insertOutcome st =
        ({ st with achievements := st.achievements ++
            [{ id := st.achievements.length + 1, code := code, title := title,
               description := rule.description.getD ("설명 없음"),
               condition := some ((rule.conditions).getD ((rule.condition).getD
                 (CondField.list []))),
               is_active := true }] }, true)) ∧
    (rule.conditions = none → rule.condition = none →
      (rule.conditions).getD ((rule.condition).getD (CondField.list []))
        = CondField.list []) := by
  refine ⟨?_, ?_, ?_, ?_, ?_, ?_⟩
  · intro h
    cases ht : rule.title <;> simp [addAchievementRule, h, ht]
  · intro h
    cases hc : rule.code <;> simp [addAchievementRule, h, hc]
  · intro code hc hdup
    cases ht : rule.title <;> simp [addAchievementRule, hc, ht, hdup]
  · intro e he
    cases hc : rule.code with
    | none => cases ht : rule.title <;> simp [addAchievementRule, hc, ht]
    | some code =>
      cases ht : rule.title with
      | none => simp [addAchievementRule, hc, ht]
      | some title =>
        by_cases hdup : (getAchievementByCode st code).isSome <;>
          simp [addAchievementRule, hc, ht, hdup, he]
  · intro code title hc ht hdup ho
    simp [addAchievementRule, hc, ht, hdup, ho]
  · intro h1 h2
    rw [h1, h2]
    rfl

/-- Example rule input for the C10 witness: code and title present, no
description and no condition fields. -/
def exRule : RuleInput :=
  { code := some ("night_owl"), title := some ("t2"), description := none,
    conditions := none, condition := none }

/-- Witness for C10: registering `exRule` on `exState` succeeds, with the
defaulted description and the empty condition list. -/
theorem addAchievementRule_spec_witness :
    exRule.code = some ("night_owl") ∧ exRule.title = some ("t2") ∧
    (getAchievementByCode exState "night_owl").isSome = false ∧
    Except.ok () = (Except.ok () : Except DbError Unit) ∧
    addAchievementRule exRule (Except.ok ()) exState =
      ({ exState with achievements := exState.achievements ++
          [{ id := exState.achievements.length + 1, code := "night_owl", title := "t2",
             description := exRule.description.getD ("설명 없음"),
             condition := some ((exRule.conditions).getD ((exRule.condition).getD
               (CondField.list []))),
             is_active := true }] }, true) :=
  ⟨rfl, rfl, by decide, rfl,
    (addAchievementRule_spec exRule (Except.ok ()) exState).2.2.2.2.1 "night_owl" "t2"
      rfl rfl (by decide) rfl⟩
